import Mathlib

/-!
Verification of the LMC (Little Man Computer) core: the `Assembler`
transformer from `assembler.py` and the `LMC` execution engine from
`vm.py`, shallowly embedded in Lean 4.

Machine integers are modelled as `Int`; Python's floor division `//`
and modulo `%` (for a positive divisor) are `Int.ediv` / `Int.emod`,
which agree with Python's semantics on negative operands.  Python list
indexing (including negative indices and `IndexError`) is modelled by
`pyGet` / `pySet` returning `Except`.  Code that can raise an exception
is modelled in the `Except` monad; a `.error` result stands for a
Python exception escaping the function.
-/

namespace Madnick

/-- `vm.tens_complement(value, base=1000)`: `base + value if value < 0 else value`. -/
def tens_complement (value : Int) (base : Int := 1000) : Int :=
  if value < 0 then base + value else value

/-- `vm.to_signed(value, base=1000)`: negate `base - value` when `value >= base // 2`. -/
def to_signed (value : Int) (base : Int := 1000) : Int :=
  if value ≥ Int.ediv base 2 then -(base - value) else value

/-- `vm.disassemble(op, addr)`: the display mnemonic for a decoded pair.
Transcribed case for case from the `match op, addr` in the source,
including its (surprising) assignment of `BRZ`/`BRP`/`BRA` to 6/7/8. -/
def disassemble (op : Int) (addr : Int) : String :=
  if op = 0 then "HLT"
  else if op = 1 then "ADD " ++ toString addr
  else if op = 2 then "SUB " ++ toString addr
  else if op = 3 then "STA " ++ toString addr
  else if op = 5 then "LDA " ++ toString addr
  else if op = 6 then "BRZ " ++ toString addr
  else if op = 7 then "BRP " ++ toString addr
  else if op = 8 then "BRA " ++ toString addr
  else if op = 9 ∧ addr = 1 then "INP"
  else if op = 9 ∧ addr = 2 then "OUT"
  else "undefined (" ++ toString op ++ ", " ++ toString addr ++ ")"

/-- `vm.int_reader(cards)`: the sequence of values the returned provider
yields before signalling end-of-stream (`None`): each card passed through
`tens_complement`.  The engine model consumes this list; the empty list
means the next pull returns `None`. -/
def int_reader (cards : List Int) : List Int :=
  cards.map (fun c => tens_complement c)

/-- `vm.IntWriter.write`: value appended to the card list, through
`to_signed` when the writer is in signed mode. -/
def intWriter_write (signed : Bool) (cards : List Int) (value : Int) : List Int :=
  cards ++ [if signed then to_signed value else value]

/-- Python list read `l[i]`: non-negative index from the front, negative
index from the back, otherwise `IndexError`. -/
def pyGet (l : List Int) (i : Int) : Except String Int :=
  if 0 ≤ i ∧ i < (l.length : Int) then .ok (l.getD i.toNat 0)
  else if -(l.length : Int) ≤ i ∧ i < 0 then .ok (l.getD ((l.length : Int) + i).toNat 0)
  else .error "IndexError: list index out of range"

/-- Python list write `l[i] = v`: same index convention as `pyGet`. -/
def pySet (l : List Int) (i : Int) (v : Int) : Except String (List Int) :=
  if 0 ≤ i ∧ i < (l.length : Int) then .ok (l.set i.toNat v)
  else if -(l.length : Int) ≤ i ∧ i < 0 then .ok (l.set ((l.length : Int) + i).toNat v)
  else .error "IndexError: list assignment index out of range"

/-- The `LMC` engine state from `vm.py`: registers, flags, the 100-word
memory, plus the caller-supplied I/O adapters modelled as lists
(`inputs` = values the input provider will still return before `None`;
`outputs` = values pushed to the output callable so far). -/
structure LMC where
  mem : List Int
  pc : Int
  acc : Int
  mar : Int
  mdr : Int
  cir : Int × Int
  is_zero : Bool
  is_nonnegative : Bool
  carry : Int
  error : Option String
  is_terminated : Bool
  inputs : List Int
  outputs : List Int
deriving Repr, DecidableEq

/-- `LMC.MEMSIZE = 100`. -/
def LMC.MEMSIZE : Int := 100

/-- `LMC.BASE = 1000`. -/
def LMC.BASE : Int := 1000

/-- `LMC._set_flags`: `is_zero = (acc == 0)`, `is_nonnegative = (acc < BASE // 2)`. -/
def LMC.set_flags (m : LMC) : LMC :=
  { m with is_zero := decide (m.acc = 0),
           is_nonnegative := decide (m.acc < Int.ediv LMC.BASE 2) }

/-- `LMC.reset`: registers, carry, flags, termination and error back to
power-on defaults; memory and adapters untouched. -/
def LMC.reset (m : LMC) : LMC :=
  let m := { m with pc := 0, acc := 0, mar := 0, mdr := 0, cir := (0, 0), carry := 1 }
  let m := m.set_flags
  { m with is_terminated := false, error := none }

/-- `LMC.clear`: zero every memory word, then reset. -/
def LMC.clear (m : LMC) : LMC :=
  LMC.reset { m with mem := List.replicate m.mem.length 0 }

/-- `LMC.__init__`: memory `[0] * MEMSIZE`, then `reset()`; adapters start empty. -/
def LMC.init : LMC :=
  LMC.reset { mem := List.replicate 100 0, pc := 0, acc := 0, mar := 0, mdr := 0,
              cir := (0, 0), is_zero := true, is_nonnegative := true, carry := 1,
              error := none, is_terminated := false, inputs := [], outputs := [] }

/-- `LMC.set_input`: install the list of values the input provider will return. -/
def LMC.set_input (m : LMC) (vals : List Int) : LMC :=
  { m with inputs := vals }

/-- `LMC._write_mem`: `mem[mar] = mdr` (Python list write); a `.error`
is the `IndexError` escaping. -/
def LMC.write_mem (m : LMC) : Except String LMC :=
  match pySet m.mem m.mar m.mdr with
  | .error e => .error e
  | .ok mem => .ok { m with mem := mem }

/-- `LMC._read_mem`: `mdr = mem[mar]` (Python list read). -/
def LMC.read_mem (m : LMC) : Except String LMC :=
  match pyGet m.mem m.mar with
  | .error e => .error e
  | .ok v => .ok { m with mdr := v }

/-- `LMC.fetch`: `mar = pc; mdr = mem[mar]; pc += 1` (after `mar = pc`
the read `mem[mar]` is `mem[pc]`). -/
def LMC.fetch (m : LMC) : Except String LMC :=
  match pyGet m.mem m.pc with
  | .error e => .error e
  | .ok v => .ok { m with mar := m.pc, mdr := v, pc := m.pc + 1 }

/-- `LMC.decode`: `cir = divmod(mdr, MEMSIZE); mar = cir[1]; _read_mem()`. -/
def LMC.decode (m : LMC) : Except String LMC :=
  LMC.read_mem { m with cir := (Int.ediv m.mdr LMC.MEMSIZE, Int.emod m.mdr LMC.MEMSIZE),
                        mar := Int.emod m.mdr LMC.MEMSIZE }

/-- The three statements closing `LMC.execute`:
`carry = acc // BASE; acc %= BASE; _set_flags()`. -/
def LMC.finish_cycle (m : LMC) : LMC :=
  LMC.set_flags { m with carry := Int.ediv m.acc LMC.BASE, acc := Int.emod m.acc LMC.BASE }

/-- `LMC.execute`: dispatch on `cir[0]` (with the `cir[1]` guards for
opcode 9) exactly as the `match` in the source; the two erroring `INP`
branches `return` before the closing truncation/flag statements. -/
def LMC.execute (m : LMC) : Except String LMC :=
  if m.cir.1 = 0 then
    .ok (LMC.finish_cycle { m with is_terminated := true })
  else if m.cir.1 = 1 then
    .ok (LMC.finish_cycle { m with acc := m.acc + m.mdr })
  else if m.cir.1 = 2 then
    .ok (LMC.finish_cycle { m with acc := m.acc + (LMC.BASE - m.mdr) })
  else if m.cir.1 = 3 then
    match LMC.write_mem { m with mdr := m.acc } with
    | .error e => .error e
    | .ok m1 => .ok (LMC.finish_cycle m1)
  else if m.cir.1 = 5 then
    .ok (LMC.finish_cycle { m with acc := m.mdr })
  else if m.cir.1 = 6 then
    .ok (LMC.finish_cycle { m with pc := m.mar })
  else if m.cir.1 = 7 then
    .ok (LMC.finish_cycle (if m.is_zero then { m with pc := m.mar } else m))
  else if m.cir.1 = 8 then
    .ok (LMC.finish_cycle (if m.is_nonnegative then { m with pc := m.mar } else m))
  else if m.cir.1 = 9 ∧ m.cir.2 = 1 then
    match m.inputs with
    | [] => .ok { m with error := some "End of input file", is_terminated := true }
    | n :: rest =>
      if ¬ (0 ≤ n ∧ n < LMC.BASE) then
        .ok { m with inputs := rest,
                     error := some ("Input out of range (0..999): " ++ toString n),
                     is_terminated := true }
      else
        .ok (LMC.finish_cycle { m with inputs := rest, acc := n })
  else if m.cir.1 = 9 ∧ m.cir.2 = 2 then
    .ok (LMC.finish_cycle { m with outputs := m.outputs ++ [m.acc] })
  else
    .ok (LMC.finish_cycle
      { m with error := some ("Bad instruction (" ++ toString m.cir.1 ++ ", " ++ toString m.cir.2 ++ ")"),
               is_terminated := true })

/-- `LMC.run_state`: `"run"` while not terminated, then `"abort"` if an
error is recorded, else `"halt"`. -/
def LMC.run_state (m : LMC) : String :=
  if ¬ m.is_terminated then "run" else if m.error.isSome then "abort" else "halt"

/-- `LMC.single_step`: one fetch–decode–execute cycle, only when
`run_state == "run"`. -/
def LMC.single_step (m : LMC) : Except String LMC :=
  if m.run_state = "run" then
    match m.fetch with
    | .error e => .error e
    | .ok m1 =>
      match m1.decode with
      | .error e => .error e
      | .ok m2 => m2.execute
  else .ok m

/-- `LMC.run`: `single_step` until `run_state != "run"`, given enough
fuel; with fuel `0` the current state is returned.  Because HALTED and
ABORTED are absorbing, any fueled run that ends in a non-`"run"` state
equals the result of the unbounded `while` loop in the source. -/
def LMC.run_fuel : Nat → LMC → Except String LMC
  | 0, m => .ok m
  | n + 1, m =>
    match m.single_step with
    | .error e => .error e
    | .ok m1 => if m1.run_state ≠ "run" then .ok m1 else LMC.run_fuel n m1

/-- The loop of `LMC.load`: `for self.mar, self.mdr in program: self._write_mem()`. -/
def LMC.load_loop (m : LMC) : List (Int × Int) → Except String LMC
  | [] => .ok m
  | (a, v) :: rest =>
    match LMC.write_mem { m with mar := a, mdr := v } with
    | .error e => .error e
    | .ok m1 => m1.load_loop rest

/-- `LMC.load`: write every (address, value) pair of the image, then `reset()`. -/
def LMC.load (m : LMC) (program : List (Int × Int)) : Except String LMC :=
  match m.load_loop program with
  | .error e => .error e
  | .ok m1 => .ok m1.reset

/-- An operand token as delivered by the lark grammar to `Assembler.start`:
either an `ADDR` token (already converted to `int` by `Assembler.ADDR`)
or a `LABEL` token (a string). -/
inductive Operand where
  | lit : Int → Operand
  | lab : String → Operand
deriving Repr, DecidableEq

/-- A `SIGNED_NUMBER` token for `DAT`, with its source position
(`item.value`, `item.line`, `item.column`). -/
structure SrcNum where
  value : Int
  line : Nat
  column : Nat
deriving Repr, DecidableEq

/-- One parse-tree child of the grammar's `start` rule, as matched by
`Assembler.start` (a line `label op` contributes a `labeldecl` child
followed by an op child). -/
inductive SrcLine where
  | labeldecl : String → SrcLine
  | org : Int → SrcLine
  | dat : Option SrcNum → SrcLine
  | hlt : SrcLine
  | inp : SrcLine
  | out : SrcLine
  | add : Operand → SrcLine
  | sub : Operand → SrcLine
  | sta : Operand → SrcLine
  | lda : Operand → SrcLine
  | bra : Operand → SrcLine
  | brz : Operand → SrcLine
  | brp : Operand → SrcLine
deriving Repr, DecidableEq

/-- An entry value of `Assembler.memory`: a plain `int` word, or a
deferred `(opcode_base, operand)` tuple awaiting fix-up. -/
inductive Word where
  | num : Int → Word
  | pending : Int → Operand → Word
deriving Repr, DecidableEq

/-- The mutable fields of `Assembler`: `labels` is the Python dict
modelled as an association list where the head is the most recent
binding (so `lookup` = `dict.get` and prepending = overwriting
assignment), `memory` the emitted list, `location` the location counter. -/
structure AsmState where
  labels : List (String × Int)
  memory : List (Int × Word)
  location : Int
deriving Repr, DecidableEq

/-- The Python exceptions `Assembler.start` can raise:
`UnexpectedInput` (the structured assembly error for a `DAT` value out
of range, carrying the interpolated value and source position) and the
unstructured `ValueError` raised by `int()` on a non-numeric string. -/
inductive PyExc where
  | unexpectedInput : Int → Nat → Nat → PyExc
  | valueError : String → PyExc
deriving Repr, DecidableEq

/-- Python's `str()` of an operand stored in a pending tuple. -/
def pyStr : Operand → String
  | .lit n => toString n
  | .lab s => s

/-- Python's `str.lower()`; the identifiers involved match
`[a-zA-Z_][_a-zA-Z0-9]*` (and `str()` of an `int`), so ASCII lowering
is exact. -/
def pyLower (s : String) : String :=
  ⟨s.data.map Char.toLower⟩

/-- Digit-string accumulator for `pyParseInt`. -/
def decDigits : List Char → Nat → Option Nat
  | [], acc => some acc
  | c :: rest, acc =>
    if c.isDigit then decDigits rest (acc * 10 + (c.toNat - 48)) else none

/-- Python's `int(str)` on the strings reaching the fix-up pass: an
optional sign followed by at least one decimal digit parses, anything
else raises `ValueError`.  (`LABEL` tokens start with a letter or
underscore, so they never parse.) -/
def pyParseInt (s : String) : Option Int :=
  match s.data with
  | [] => none
  | '-' :: rest =>
    if rest.isEmpty then none else (decDigits rest 0).map (fun n => -(n : Int))
  | '+' :: rest =>
    if rest.isEmpty then none else (decDigits rest 0).map (fun n => (n : Int))
  | l => (decDigits l 0).map (fun n => (n : Int))

/-- Python's `int()` applied to a label-table default: identity on the
`int` already stored, parse-or-`ValueError` on a string. -/
def pyInt (labels : List (String × Int)) (opnd : Operand) : Except PyExc Int :=
  match labels.lookup (pyLower (pyStr opnd)) with
  | some a => .ok a
  | none =>
    match opnd with
    | .lit n => .ok n
    | .lab s =>
      match pyParseInt s with
      | some n => .ok n
      | none => .error (.valueError s)

/-- The first loop of `Assembler.start`: one pass over the parse-tree
children, binding labels (a rebinding silently overwrites), handling
`ORG`, validating `DAT` values, and emitting words or pending tuples. -/
def asm_pass1 (st : AsmState) : List SrcLine → Except PyExc AsmState
  | [] => .ok st
  | line :: rest =>
    match line with
    | .labeldecl s =>
      asm_pass1 { st with labels := (pyLower s, st.location) :: st.labels } rest
    | .org a =>
      asm_pass1 { st with location := a } rest
    | .dat item =>
      let value := match item with | none => 0 | some t => t.value
      if ¬ (-999 ≤ value ∧ value ≤ 999) then
        match item with
        | some t => .error (.unexpectedInput t.value t.line t.column)
        | none => .ok st
      else
        asm_pass1 { st with memory := st.memory ++ [(st.location, .num value)],
                            location := st.location + 1 } rest
    | .hlt =>
      asm_pass1 { st with memory := st.memory ++ [(st.location, .num 0)],
                          location := st.location + 1 } rest
    | .add opnd =>
      asm_pass1 { st with memory := st.memory ++ [(st.location, .pending 100 opnd)],
                          location := st.location + 1 } rest
    | .sub opnd =>
      asm_pass1 { st with memory := st.memory ++ [(st.location, .pending 200 opnd)],
                          location := st.location + 1 } rest
    | .sta opnd =>
      asm_pass1 { st with memory := st.memory ++ [(st.location, .pending 300 opnd)],
                          location := st.location + 1 } rest
    | .lda opnd =>
      asm_pass1 { st with memory := st.memory ++ [(st.location, .pending 500 opnd)],
                          location := st.location + 1 } rest
    | .bra opnd =>
      asm_pass1 { st with memory := st.memory ++ [(st.location, .pending 600 opnd)],
                          location := st.location + 1 } rest
    | .brz opnd =>
      asm_pass1 { st with memory := st.memory ++ [(st.location, .pending 700 opnd)],
                          location := st.location + 1 } rest
    | .brp opnd =>
      asm_pass1 { st with memory := st.memory ++ [(st.location, .pending 800 opnd)],
                          location := st.location + 1 } rest
    | .inp =>
      asm_pass1 { st with memory := st.memory ++ [(st.location, .num 901)],
                          location := st.location + 1 } rest
    | .out =>
      asm_pass1 { st with memory := st.memory ++ [(st.location, .num 902)],
                          location := st.location + 1 } rest

/-- The fix-up loop of `Assembler.start`: every `(opcode, label)` tuple
becomes `opcode + int(labels.get(str(label).lower(), label))`; plain
words pass through. -/
def fixup (labels : List (String × Int)) : List (Int × Word) → Except PyExc (List (Int × Int))
  | [] => .ok []
  | (loc, .num n) :: rest =>
    match fixup labels rest with
    | .error e => .error e
    | .ok r => .ok ((loc, n) :: r)
  | (loc, .pending opcode opnd) :: rest =>
    match pyInt labels opnd with
    | .error e => .error e
    | .ok a =>
      match fixup labels rest with
      | .error e => .error e
      | .ok r => .ok ((loc, opcode + a) :: r)

/-- `Assembler.start` end to end: the emission/label pass over the
parsed lines followed by the fix-up pass, from a fresh `Assembler`
(`labels = {}`, `memory = []`, `location = 0`). -/
def assemble (lines : List SrcLine) : Except PyExc (List (Int × Int)) :=
  match asm_pass1 { labels := [], memory := [], location := 0 } lines with
  | .error e => .error e
  | .ok st => fixup st.labels st.memory

/-- All words of a memory list lie in the machine-word range `0..999`. -/
def memInRange (l : List Int) : Bool :=
  l.all (fun w => decide (0 ≤ w ∧ w ≤ 999))

/-- The memory array after `load` wrote every in-range (address, value)
pair of an image, in order. -/
def applyImage (mem : List Int) : List (Int × Int) → List Int
  | [] => mem
  | (a, v) :: rest => applyImage (mem.set a.toNat v) rest

/-- The parse of `INP / STA a / INP / ADD a / OUT / HLT / a DAT`
(the forward reference to `a` is resolved at fix-up). -/
def c1_prog : List SrcLine :=
  [.inp, .sta (.lab "a"), .inp, .add (.lab "a"), .out, .hlt, .labeldecl "a", .dat none]

/-- The memory image `assemble c1_prog` produces. -/
def c1_code : List (Int × Int) :=
  [(0, 901), (1, 306), (2, 901), (3, 106), (4, 902), (5, 0), (6, 0)]

/-- Load `c1_code` into a fresh machine, attach an input adapter built
by `int_reader` over the cards `[17, 4]`, and run to completion (fuel
100 is ample; the program halts after six steps). -/
def c1_run : Except String LMC :=
  match LMC.init.load c1_code with
  | .error e => .error e
  | .ok m => LMC.run_fuel 100 (m.set_input (int_reader [17, 4]))

/-- A running machine whose memory is all in `0..999` (an `INP` at
address 0), whose input stream is exhausted, but whose accumulator
holds the out-of-range value 1000. -/
def c2_state : LMC :=
  { mem := (List.replicate 100 0).set 0 901, pc := 0, acc := 1000, mar := 0, mdr := 0,
    cir := (0, 0), is_zero := false, is_nonnegative := false, carry := 1,
    error := none, is_terminated := false, inputs := [], outputs := [] }

/-- A running machine about to execute `ADD 01` (word 101) with the
accumulator at 999 and `mem[1] = 1`: the encoded `+1` case. -/
def c2_add_state : LMC :=
  { mem := ((List.replicate 100 0).set 0 101).set 1 1, pc := 0, acc := 999, mar := 0,
    mdr := 0, cir := (0, 0), is_zero := false, is_nonnegative := false, carry := 1,
    error := none, is_terminated := false, inputs := [], outputs := [] }

/-- The state `single_step` produces from `c2_add_state`. -/
def c2_add_next : LMC :=
  (c2_add_state.single_step.toOption).getD c2_add_state

/-- A running machine whose decoded current instruction is `INP`
(`cir = (9, 1)`) with an exhausted input stream. -/
def c6_state : LMC :=
  { mem := List.replicate 100 0, pc := 1, acc := 3, mar := 1, mdr := 0,
    cir := (9, 1), is_zero := false, is_nonnegative := true, carry := 1,
    error := none, is_terminated := false, inputs := [], outputs := [] }

/-- A machine that reached HALTED (`HLT`: terminated, no error). -/
def c7_state : LMC :=
  { mem := List.replicate 100 0, pc := 1, acc := 7, mar := 0, mdr := 0,
    cir := (0, 0), is_zero := false, is_nonnegative := true, carry := 0,
    error := none, is_terminated := true, inputs := [5], outputs := [9] }

/-- A machine that reached ABORTED (terminated with an error). -/
def c7_abort_state : LMC :=
  { mem := List.replicate 100 0, pc := 1, acc := 7, mar := 1, mdr := 0,
    cir := (9, 1), is_zero := false, is_nonnegative := true, carry := 0,
    error := some "End of input file", is_terminated := true, inputs := [], outputs := [] }

/-- C1: assembling `INP / STA a / INP / ADD a / OUT / HLT / a DAT` (a
program with a forward reference to label `a`) yields the expected
image, and loading it, supplying inputs `[17, 4]` through `int_reader`,
and running leaves the machine in run state `"halt"` (HALTED) with the
output sink having received exactly `[21]`. -/
theorem c1_end_to_end :
    assemble c1_prog = .ok c1_code ∧
    c1_run.map (fun m => (m.run_state, m.outputs)) = .ok ("halt", [21]) :=
  ⟨rfl, rfl⟩

/-- C8: `to_signed` inverts `tens_complement` on all of `-500..499`,
and the specific complement table from the spec holds. -/
theorem c8_complement_round_trip :
    (∀ s : Int, -500 ≤ s → s ≤ 499 → to_signed (tens_complement s) = s) ∧
    tens_complement 0 = 0 ∧ tens_complement 1 = 1 ∧ tens_complement (-1) = 999 ∧
    tens_complement (-499) = 501 ∧ tens_complement (-500) = 500 ∧
    tens_complement 499 = 499 := by
  refine ⟨?_, by decide, by decide, by decide, by decide, by decide, by decide⟩
  intro s h1 h2
  unfold to_signed tens_complement
  rw [show Int.ediv (1000 : Int) 2 = 500 from by decide]
  split_ifs <;> omega

/-- C8 witness: the round trip at the concrete input `-13`. -/
theorem c8_complement_round_trip_witness :
    to_signed (tens_complement (-13)) = -13 :=
  c8_complement_round_trip.1 (-13) (by decide) (by decide)

/-- C9: evaluating `disassemble` on each decoded opcode.  Opcode codes
6, 7, 8 come back as `BRZ`, `BRP`, `BRA` — rotated against the
assembler's mapping (`BRA=600`, `BRZ=700`, `BRP=800`) and against
`LMC.execute`, where code 6 is the unconditional branch. -/
theorem c9_disassemble_branch_mnemonics :
    disassemble 6 42 = "BRZ 42" ∧ disassemble 7 42 = "BRP 42" ∧
    disassemble 8 42 = "BRA 42" ∧ disassemble 1 42 = "ADD 42" ∧
    disassemble 2 42 = "SUB 42" ∧ disassemble 3 42 = "STA 42" ∧
    disassemble 5 42 = "LDA 42" ∧ disassemble 9 1 = "INP" ∧
    disassemble 9 2 = "OUT" :=
  ⟨rfl, rfl, rfl, rfl, rfl, rfl, rfl, rfl, rfl⟩

/-- C2 counterexample: a machine whose memory is entirely in `0..999`
but whose accumulator already holds 1000, about to execute an `INP`
with the input stream exhausted: `single_step` takes the early-return
error path, so afterwards the accumulator is still 1000 > 999. -/
theorem c2_counterexample :
    memInRange c2_state.mem = true ∧
    c2_state.single_step.map LMC.acc = .ok 1000 ∧
    ¬ (0 ≤ (1000 : Int) ∧ (1000 : Int) ≤ 999) :=
  ⟨by decide, rfl, by decide⟩

/-- C3 counterexample: `a DAT -1` assembles to the raw word `-1`,
not to `tens_complement (-1) = 999`: the assembler never applies the
tens-complement conversion to `DAT` values. -/
theorem c3_counterexample :
    assemble [.dat (some ⟨-1, 7, 5⟩)] = .ok [(0, -1)] ∧
    tens_complement (-1) = 999 ∧ ((-1 : Int) = 999 → False) :=
  ⟨rfl, by decide, by decide⟩

/-- C4 counterexample: a program defining label `a` twice assembles
without any error; the second definition silently overwrites the first
(the `BRA a` resolves to address 1, the later binding). -/
theorem c4_counterexample :
    assemble [.labeldecl "a", .hlt, .labeldecl "a", .hlt, .bra (.lab "a")] =
      .ok [(0, 0), (1, 0), (2, 601)] :=
  rfl

/-- C5 counterexample: referencing the never-defined label `x` does not
produce a structured assembly error: fix-up falls back to `int("x")`,
which raises an unstructured `ValueError`. -/
theorem c5_counterexample :
    assemble [.add (.lab "x")] = .error (.valueError "x") :=
  rfl

/-- C10 counterexample: `load` performs no address check.  Address `-1`
(outside 0..99) silently writes to word 99 with no error recorded, and
address `100` raises an unstructured `IndexError` instead of a reported
configuration error. -/
theorem c10_counterexample :
    (LMC.init.load [(-1, 7)]).map (fun m => (m.error, m.mem.getD 99 0)) = .ok (none, 7) ∧
    LMC.init.load [(100, 7)] = .error "IndexError: list assignment index out of range" :=
  ⟨rfl, rfl⟩

/-- C7: on a machine whose run state is HALTED (`"halt"`) or ABORTED
(`"abort"`), `single_step` returns the state unchanged — every
register, flag, memory word, the error and the run state are identical. -/
theorem c7_terminal_step_noop (m : LMC)
    (h : m.run_state = "halt" ∨ m.run_state = "abort") :
    m.single_step = .ok m := by
  unfold LMC.single_step
  rcases h with h | h <;> rw [h] <;> rfl

/-- C7 witness: a concrete HALTED machine and a concrete ABORTED
machine are both left untouched by `single_step`. -/
theorem c7_terminal_step_noop_witness :
    c7_state.single_step = .ok c7_state ∧
    c7_abort_state.single_step = .ok c7_abort_state :=
  ⟨c7_terminal_step_noop c7_state (Or.inl rfl),
   c7_terminal_step_noop c7_abort_state (Or.inr rfl)⟩

/-- C6: when the decoded instruction is `INP` (`cir = (9, 1)`) and the
input adapter is exhausted, `execute` returns normally (`.ok`, no
exception escapes) with the error `"End of input file"` recorded and
the machine terminated; the resulting run state is `"abort"`, while a
terminated machine without an error reads `"halt"`, and the two are
distinct, so callers can tell ABORTED from HALTED. -/
theorem c6_inp_end_of_input (m : LMC)
    (hc : m.cir = (9, 1)) (hin : m.inputs = []) :
    m.execute = .ok { m with error := some "End of input file", is_terminated := true } ∧
    LMC.run_state { m with error := some "End of input file", is_terminated := true } = "abort" ∧
    (∀ mh : LMC, mh.is_terminated = true → mh.error = none → mh.run_state = "halt") ∧
    ("abort" : String) ≠ "halt" := by
  refine ⟨?_, rfl, ?_, by decide⟩
  · unfold LMC.execute
    rw [hc, hin]
    simp
  · intro mh h1 h2
    unfold LMC.run_state
    rw [h1, h2]
    rfl

/-- C6 witness: the abort transition at the concrete state `c6_state`. -/
theorem c6_inp_end_of_input_witness :
    c6_state.execute =
      .ok { c6_state with error := some "End of input file", is_terminated := true } ∧
    LMC.run_state { c6_state with error := some "End of input file", is_terminated := true } =
      "abort" ∧
    (∀ mh : LMC, mh.is_terminated = true → mh.error = none → mh.run_state = "halt") ∧
    ("abort" : String) ≠ "halt" :=
  c6_inp_end_of_input c6_state rfl rfl

/-- C3 (amended): a `DAT` line with explicit value `v` in `-999..999`
appends the pair `(location, v)` with the raw — possibly negative —
value (no tens-complement conversion), advances the location by 1, and
the raw value passes unchanged through fix-up into the memory image; a
value outside `-999..999` raises the out-of-range `UnexpectedInput`
carrying the token's line and column, so no image is produced. -/
theorem c3_dat_raw_value (st : AsmState) (v : Int) (ln col : Nat) (rest : List SrcLine) :
    (-999 ≤ v ∧ v ≤ 999 →
      asm_pass1 st (SrcLine.dat (some ⟨v, ln, col⟩) :: rest) =
        asm_pass1 { st with memory := st.memory ++ [(st.location, Word.num v)],
                            location := st.location + 1 } rest) ∧
    (¬ (-999 ≤ v ∧ v ≤ 999) →
      asm_pass1 st (SrcLine.dat (some ⟨v, ln, col⟩) :: rest) =
        .error (.unexpectedInput v ln col)) ∧
    (∀ (labels : List (String × Int)) (loc : Int) (ws : List (Int × Word)),
      fixup labels ((loc, Word.num v) :: ws) =
        (fixup labels ws).map (fun r => (loc, v) :: r)) := by
  refine ⟨?_, ?_, ?_⟩
  · intro h
    conv_lhs => rw [asm_pass1.eq_def]
    dsimp only
    rw [if_neg (not_not_intro h)]
  · intro h
    conv_lhs => rw [asm_pass1.eq_def]
    dsimp only
    rw [if_pos h]
  · intro labels loc ws
    cases hw : fixup labels ws <;> simp [fixup, hw, Except.map]

/-- C3 witness: `DAT -7` at a fresh assembler state appends the raw
word `-7` at location 0. -/
theorem c3_dat_raw_value_witness :
    asm_pass1 { labels := [], memory := [], location := 0 } [SrcLine.dat (some ⟨-7, 2, 9⟩)] =
      asm_pass1 { labels := [], memory := [(0, Word.num (-7))], location := 1 } [] :=
  (c3_dat_raw_value { labels := [], memory := [], location := 0 } (-7) 2 9 []).1 (by decide)

/-- C4 (amended): a label definition never raises, whatever is already
bound: it silently installs `label.lower() → current location` as the
newest binding, and a lookup always returns the newest binding for its
key, so a duplicate definition overwrites the earlier one and later
references resolve to the last location. -/
theorem c4_label_rebinding_overwrites (st : AsmState) (s : String) (rest : List SrcLine) :
    asm_pass1 st (SrcLine.labeldecl s :: rest) =
      asm_pass1 { st with labels := (pyLower s, st.location) :: st.labels } rest ∧
    ∀ (v : Int) (tl : List (String × Int)),
      List.lookup (pyLower s) ((pyLower s, v) :: tl) = some v := by
  refine ⟨rfl, ?_⟩
  intro v tl
  simp [List.lookup]

/-- C5 (amended): a reference to a label defined under any letter case
resolves case-insensitively at fix-up and the final word is
`opcode_base + resolved_address`; a reference to a label that is never
defined makes fix-up fall back to Python's `int()` on the label text,
which raises an unstructured `ValueError` (assembly still fails and no
image is produced, but not with a positioned assembly error). -/
theorem c5_fixup_resolution (d r x : String)
    (hcase : pyLower d = pyLower r) (hx : pyParseInt x = none) :
    assemble [SrcLine.labeldecl d, SrcLine.bra (.lab r), SrcLine.hlt] =
      .ok [(0, 600), (1, 0)] ∧
    assemble [SrcLine.add (.lab x)] = .error (.valueError x) := by
  constructor
  · simp [assemble, asm_pass1, fixup, pyInt, pyStr, List.lookup, hcase]
  · simp [assemble, asm_pass1, fixup, pyInt, pyStr, List.lookup, hx]

/-- C5 witness: label defined as `A`, referenced as `a`, resolves to
address 0 (`BRA a` = 600); the undefined label `x` raises `ValueError`. -/
theorem c5_fixup_resolution_witness :
    assemble [SrcLine.labeldecl "A", SrcLine.bra (.lab "a"), SrcLine.hlt] =
      .ok [(0, 600), (1, 0)] ∧
    assemble [SrcLine.add (.lab "x")] = .error (.valueError "x") :=
  c5_fixup_resolution "A" "a" "x" (by decide) (by decide)

/-- Helper: on an image whose addresses are all in range for the
current memory, the write loop of `load` succeeds and produces exactly
the in-order writes; only `mar`/`mdr` hold leftover values, which
`reset` then discards. -/
theorem load_loop_in_range (prog : List (Int × Int)) (m : LMC)
    (h : ∀ p ∈ prog, 0 ≤ p.1 ∧ p.1 < (m.mem.length : Int)) :
    ∃ a v, m.load_loop prog =
      .ok { m with mem := applyImage m.mem prog, mar := a, mdr := v } := by
  induction prog generalizing m with
  | nil => exact ⟨m.mar, m.mdr, rfl⟩
  | cons p rest ih =>
    obtain ⟨a, v⟩ := p
    have hp := h (a, v) (List.mem_cons_self _ _)
    have hset : pySet m.mem a v = .ok (m.mem.set a.toNat v) := by
      unfold pySet
      rw [if_pos ⟨hp.1, hp.2⟩]
    have hw : LMC.write_mem { m with mar := a, mdr := v } =
        .ok { m with mar := a, mdr := v, mem := m.mem.set a.toNat v } := by
      unfold LMC.write_mem
      dsimp only
      rw [hset]
    have h2 : ∀ q ∈ rest, 0 ≤ q.1 ∧
        q.1 < ((({ m with mar := a, mdr := v, mem := m.mem.set a.toNat v } : LMC).mem).length : Int) := by
      intro q hq
      have := h q (List.mem_cons_of_mem _ hq)
      simpa [List.length_set] using this
    obtain ⟨a2, v2, hrec⟩ := ih { m with mar := a, mdr := v, mem := m.mem.set a.toNat v } h2
    refine ⟨a2, v2, ?_⟩
    rw [LMC.load_loop, hw]
    dsimp only
    rw [hrec]
    rfl

/-- C10 (amended): `load` makes no address check at all (an address in
`-100..-1` silently wraps to the end of memory and an address outside
`-100..99` raises an unstructured `IndexError`, per the counterexample);
for an image whose addresses all lie in `0..99` on the 100-word memory
it writes every value to its address in order and then resets the
registers and flags to power-on defaults without clearing memory. -/
theorem c10_load_in_range (m : LMC) (prog : List (Int × Int))
    (hlen : m.mem.length = 100)
    (h : ∀ p ∈ prog, 0 ≤ p.1 ∧ p.1 ≤ 99) :
    m.load prog = .ok (LMC.reset { m with mem := applyImage m.mem prog }) := by
  have h' : ∀ p ∈ prog, 0 ≤ p.1 ∧ p.1 < (m.mem.length : Int) := by
    intro p hp
    have := h p hp
    rw [hlen]
    exact ⟨this.1, by omega⟩
  obtain ⟨a, v, hloop⟩ := load_loop_in_range prog m h'
  unfold LMC.load
  rw [hloop]
  rfl

/-- C10 witness: loading the one-pair image `[(3, 7)]` into a fresh
machine writes word 3 and resets. -/
theorem c10_load_in_range_witness :
    LMC.init.load [(3, 7)] = .ok (LMC.reset { LMC.init with mem := applyImage LMC.init.mem [(3, 7)] }) :=
  c10_load_in_range LMC.init [(3, 7)] (by decide) (by decide)

/-- Helper: the closing truncation/flag statements of `execute` leave
the accumulator in `0..999` and the flags consistent with it. -/
theorem finish_cycle_invariant (m : LMC) :
    (0 ≤ (LMC.finish_cycle m).acc ∧ (LMC.finish_cycle m).acc ≤ 999) ∧
    (LMC.finish_cycle m).is_zero = decide ((LMC.finish_cycle m).acc = 0) ∧
    (LMC.finish_cycle m).is_nonnegative = decide ((LMC.finish_cycle m).acc < 500) := by
  have h1 : 0 ≤ Int.emod m.acc 1000 := Int.emod_nonneg m.acc (by decide)
  have h2 : Int.emod m.acc 1000 < 1000 := Int.emod_lt_of_pos m.acc (by decide)
  unfold LMC.finish_cycle LMC.set_flags LMC.BASE
  dsimp only
  exact ⟨⟨h1, by omega⟩, rfl, by rw [show Int.ediv (1000 : Int) 2 = 500 from by decide]⟩

/-- Helper: `fetch` never touches the accumulator or the flags. -/
theorem fetch_preserves (m m1 : LMC) (h : m.fetch = .ok m1) :
    m1.acc = m.acc ∧ m1.is_zero = m.is_zero ∧ m1.is_nonnegative = m.is_nonnegative := by
  unfold LMC.fetch at h
  cases hg : pyGet m.mem m.pc with
  | error e => rw [hg] at h; exact absurd h (by simp)
  | ok v =>
    rw [hg] at h
    rw [Except.ok.injEq] at h
    subst h
    exact ⟨rfl, rfl, rfl⟩

/-- Helper: `_read_mem` never touches the accumulator or the flags. -/
theorem read_mem_preserves (m m1 : LMC) (h : m.read_mem = .ok m1) :
    m1.acc = m.acc ∧ m1.is_zero = m.is_zero ∧ m1.is_nonnegative = m.is_nonnegative := by
  unfold LMC.read_mem at h
  cases hg : pyGet m.mem m.mar with
  | error e => rw [hg] at h; exact absurd h (by simp)
  | ok v =>
    rw [hg] at h
    rw [Except.ok.injEq] at h
    subst h
    exact ⟨rfl, rfl, rfl⟩

/-- Helper: `decode` never touches the accumulator or the flags. -/
theorem decode_preserves (m m1 : LMC) (h : m.decode = .ok m1) :
    m1.acc = m.acc ∧ m1.is_zero = m.is_zero ∧ m1.is_nonnegative = m.is_nonnegative := by
  unfold LMC.decode at h
  have hpres := read_mem_preserves _ m1 h
  exact hpres

/-- Helper: whenever `execute` returns normally from a state whose
accumulator is in `0..999` with flags consistent, the result again has
the accumulator in `0..999` and consistent flags (every branch either
runs the closing truncation/flag statements or returns the accumulator
and flags untouched). -/
theorem execute_invariant (m m' : LMC)
    (hacc : 0 ≤ m.acc ∧ m.acc ≤ 999)
    (hz : m.is_zero = decide (m.acc = 0))
    (hp : m.is_nonnegative = decide (m.acc < 500))
    (h : m.execute = .ok m') :
    (0 ≤ m'.acc ∧ m'.acc ≤ 999) ∧
    m'.is_zero = decide (m'.acc = 0) ∧
    m'.is_nonnegative = decide (m'.acc < 500) := by
  unfold LMC.execute at h
  by_cases h0 : m.cir.1 = 0
  · rw [if_pos h0, Except.ok.injEq] at h; subst h; exact finish_cycle_invariant _
  rw [if_neg h0] at h
  by_cases h1 : m.cir.1 = 1
  · rw [if_pos h1, Except.ok.injEq] at h; subst h; exact finish_cycle_invariant _
  rw [if_neg h1] at h
  by_cases h2 : m.cir.1 = 2
  · rw [if_pos h2, Except.ok.injEq] at h; subst h; exact finish_cycle_invariant _
  rw [if_neg h2] at h
  by_cases h3 : m.cir.1 = 3
  · rw [if_pos h3] at h
    cases hw : LMC.write_mem { m with mdr := m.acc } with
    | error e => rw [hw] at h; exact absurd h (by simp)
    | ok m1 => rw [hw, Except.ok.injEq] at h; subst h; exact finish_cycle_invariant _
  rw [if_neg h3] at h
  by_cases h5 : m.cir.1 = 5
  · rw [if_pos h5, Except.ok.injEq] at h; subst h; exact finish_cycle_invariant _
  rw [if_neg h5] at h
  by_cases h6 : m.cir.1 = 6
  · rw [if_pos h6, Except.ok.injEq] at h; subst h; exact finish_cycle_invariant _
  rw [if_neg h6] at h
  by_cases h7 : m.cir.1 = 7
  · rw [if_pos h7, Except.ok.injEq] at h; subst h; exact finish_cycle_invariant _
  rw [if_neg h7] at h
  by_cases h8 : m.cir.1 = 8
  · rw [if_pos h8, Except.ok.injEq] at h; subst h; exact finish_cycle_invariant _
  rw [if_neg h8] at h
  by_cases h91 : m.cir.1 = 9 ∧ m.cir.2 = 1
  · rw [if_pos h91] at h
    cases hin : m.inputs with
    | nil =>
      rw [hin] at h
      dsimp only at h
      rw [Except.ok.injEq] at h; subst h
      exact ⟨hacc, hz, hp⟩
    | cons n rest =>
      rw [hin] at h
      dsimp only at h
      by_cases hr : ¬ (0 ≤ n ∧ n < LMC.BASE)
      · rw [if_pos hr, Except.ok.injEq] at h; subst h
        exact ⟨hacc, hz, hp⟩
      · rw [if_neg hr, Except.ok.injEq] at h; subst h; exact finish_cycle_invariant _
  rw [if_neg h91] at h
  by_cases h92 : m.cir.1 = 9 ∧ m.cir.2 = 2
  · rw [if_pos h92, Except.ok.injEq] at h; subst h; exact finish_cycle_invariant _
  rw [if_neg h92, Except.ok.injEq] at h
  subst h
  exact finish_cycle_invariant _

/-- C2 (amended): for every machine state with all memory words in
`0..999` whose accumulator is already in `0..999` and whose flags are
consistent with it, any `single_step` that returns normally leaves
`0 ≤ ACC ≤ 999`, `is_zero = (ACC == 0)` and `is_nonnegative =
(ACC < 500)`.  (The extra accumulator/flag hypotheses are forced by the
counterexample: the `INP` error paths return before the truncation and
flag recomputation, and a non-RUNNING step is a no-op, so memory-only
hypotheses do not suffice.) -/
theorem c2_single_step_invariant (m m' : LMC)
    (hmem : memInRange m.mem = true)
    (hacc : 0 ≤ m.acc ∧ m.acc ≤ 999)
    (hz : m.is_zero = decide (m.acc = 0))
    (hp : m.is_nonnegative = decide (m.acc < 500))
    (h : m.single_step = .ok m') :
    (0 ≤ m'.acc ∧ m'.acc ≤ 999) ∧
    m'.is_zero = decide (m'.acc = 0) ∧
    m'.is_nonnegative = decide (m'.acc < 500) := by
  unfold LMC.single_step at h
  split_ifs at h
  · cases hf : m.fetch with
    | error e => rw [hf] at h; exact absurd h (by simp)
    | ok m1 =>
      rw [hf] at h
      dsimp only at h
      cases hd : m1.decode with
      | error e => rw [hd] at h; exact absurd h (by simp)
      | ok m2 =>
        rw [hd] at h
        dsimp only at h
        have pf := fetch_preserves m m1 hf
        have pd := decode_preserves m1 m2 hd
        have e1 : m2.acc = m.acc := by rw [pd.1, pf.1]
        have e2 : m2.is_zero = m.is_zero := by rw [pd.2.1, pf.2.1]
        have e3 : m2.is_nonnegative = m.is_nonnegative := by rw [pd.2.2, pf.2.2]
        exact execute_invariant m2 m' (by rw [e1]; exact hacc)
          (by rw [e2, e1]; exact hz) (by rw [e3, e1]; exact hp) h
  · rw [Except.ok.injEq] at h
    subst h
    exact ⟨hacc, hz, hp⟩

/-- C2 witness: from `c2_add_state` (accumulator 999, consistent flags,
about to execute `ADD` of a word encoding `+1`), `single_step` returns
`c2_add_next`, whose accumulator is 0 — truncated, not 1000 — with the
flags recomputed. -/
theorem c2_single_step_invariant_witness :
    ((0 ≤ c2_add_next.acc ∧ c2_add_next.acc ≤ 999) ∧
      c2_add_next.is_zero = decide (c2_add_next.acc = 0) ∧
      c2_add_next.is_nonnegative = decide (c2_add_next.acc < 500)) ∧
    c2_add_next.acc = 0 :=
  ⟨c2_single_step_invariant c2_add_state c2_add_next (by decide) (by decide) rfl rfl rfl,
   rfl⟩

end Madnick
